import Mathlib

/-!
# Verification of the media-manager classification / merge / catalog engine

Shallow embedding of the Go sources of `media-manager`:

* `classifier` package (src/unnamed/part_003): `DetermineCategory`,
  `ClassifyAndMove`, `GetSeasonNumberFromDirName`, `GetExistingSeasons`,
  `GetNewSeasons`, `HasNewSeasons`, `DetectMissingSeasonsAndEpisodes`,
  `MoveDirectory`, `isNFOResolved`.
* `database` package (src/database/database.go, the current version declaring
  `updated_at`/`version`/`is_complete`): `InsertOrUpdateMediaRecord`,
  `InsertMissingSeason`, `InsertMissingEpisode`, `GetMediaRecords`.
* `utils` package (src/utils/chinese.go): `IsSimplifiedChinese`.

Side-effecting Go code is embedded as explicit state passing: the SQLite
tables become lists of rows threaded through the functions, the filesystem
becomes a finite tree of named nodes, `time.Now()` becomes an explicit
`now : Nat` parameter, and the remote TMDB lookups become `Except`-valued
parameters supplied by the caller.
-/

namespace MediaManager

/-! ## String helpers

`strings.Contains` and `strings.ToLower` as used by the Go code.  The Go
`strings.ToLower` lowercases full Unicode; every keyword the classifier
compares against is either ASCII or Chinese (Chinese characters are
case-less), so Lean's ASCII `String.toLower` coincides with it on all the
inputs the code distinguishes. -/

/-- ASCII lowercasing of one character, as Go lowercases the letters the
classifier keywords use. -/
def charToLower (c : Char) : Char :=
  if c.toNat ≥ 65 ∧ c.toNat ≤ 90 then Char.ofNat (c.toNat + 32) else c

/-- `pat` is a prefix of `cs`. -/
def listPrefix : List Char → List Char → Bool
  | [], _ => true
  | _ :: _, [] => false
  | p :: ps, c :: cs => p = c && listPrefix ps cs

/-- `pat` occurs contiguously inside `cs`. -/
def listContainsSub : List Char → List Char → Bool
  | cs, pat =>
    listPrefix pat cs ||
      (match cs with
       | [] => false
       | _ :: rest => listContainsSub rest pat)

/-- Go `strings.Contains s sub`: `sub` occurs as a contiguous substring of
`s` (always true for the empty pattern). -/
def strContains (s sub : String) : Bool :=
  listContainsSub s.data sub.data

/-- Go `strings.ToLower` restricted to ASCII letters (the only cased
characters the classifier compares). -/
def lowerStr (s : String) : String :=
  ⟨s.data.map charToLower⟩

/-! ## The `classifier` category constants (src/unnamed/part_003, lines 22-33) -/

def CategoryCnMovie : String := "CnMovie"
def CategoryCnShow : String := "CnShow"
def CategoryEnMovie : String := "EnMovie"
def CategoryEnShow : String := "EnShow"
def CategoryJpKrShow : String := "Jp&KrShow"
def CategoryJpKrMovie : String := "Jp&KrMovie"
def CategoryDmMovie : String := "DmMovie"
def CategoryDmShow : String := "DmShow"
def CategoryJlShow : String := "JlShow"
def CategoryXSShow : String := "XSShow"

/-! ## `DetermineCategory` (src/unnamed/part_003, lines 361-455) -/

/-- First loop of `DetermineCategory`: the genre marks a documentary. -/
def isDocumentaryGenre (genre : String) : Bool :=
  strContains (lowerStr genre) "纪录片" || strContains (lowerStr genre) "documentary"

/-- The variety-format keyword list of `DetermineCategory` (lines 372-380). -/
def varietyKeywords : List String :=
  ["综艺节目", "variety", "真人秀", "reality", "真人节目", "reality show",
   "脱口秀", "talk show", "游戏节目", "game-show", "竞赛节目", "competition",
   "选秀节目", "talent show"]

/-- Second loop of `DetermineCategory`: the genre matches a variety keyword. -/
def isVarietyGenre (genre : String) : Bool :=
  varietyKeywords.any (fun keyword => strContains (lowerStr genre) keyword)

/-- Third loop of `DetermineCategory`: the genre marks an anime title. -/
def isAnimeGenre (genre : String) : Bool :=
  strContains (lowerStr genre) "动漫" || strContains (lowerStr genre) "动画" ||
    strContains (lowerStr genre) "animation"

/-- The Japan/Korea test of the country loop (lines 414-420). -/
def isJpKrCountry (country : String) : Bool :=
  let c := (lowerStr country)
  strContains c "日本" || strContains c "日本国" || strContains c "japan" ||
    strContains c "韩国" || strContains c "大韩民国" || strContains c "korea" ||
    strContains c "south korea"

/-- The China / Hong Kong / Taiwan test of the country loop (lines 428-439). -/
def isCnCountry (country : String) : Bool :=
  let c := (lowerStr country)
  strContains c "中国大陆" || strContains c "中国香港" ||
    strContains c "香港特别行政区" || strContains c "中国台湾" ||
    strContains c "台湾地区" || strContains c "香港" || strContains c "台湾" ||
    strContains c "中国" || strContains c "中华人民共和国" ||
    strContains c "china" || strContains c "hong kong" || strContains c "taiwan"

/-- Body of the country loop of `DetermineCategory` (lines 410-451): every
branch returns, so the first listed country always decides. -/
def countryCategory (country : String) (isTVShow : Bool) : String :=
  if isJpKrCountry country then
    if isTVShow then CategoryJpKrShow else CategoryJpKrMovie
  else if isCnCountry country then
    if isTVShow then CategoryCnShow else CategoryCnMovie
  else
    if isTVShow then CategoryEnShow else CategoryEnMovie

/-- `for _, country := range countries` of `DetermineCategory`: the loop body
returns unconditionally, so it yields a result exactly when the list is
non-empty. -/
def categoryFromCountries (countries : List String) (isTVShow : Bool) :
    Option String :=
  countries.findSome? (fun country => some (countryCategory country isTVShow))

/-- `DetermineCategory(countries, isTVShow, genres)` (lines 361-455):
genre overrides (documentary, variety, anime) in priority order, then the
country loop, and the "没有有效的国家信息" error when no country is present. -/
def DetermineCategory (countries : List String) (isTVShow : Bool)
    (genres : List String) : Except String String :=
  if genres.any isDocumentaryGenre then .ok CategoryJlShow
  else if genres.any isVarietyGenre then .ok CategoryXSShow
  else if genres.any isAnimeGenre then
    .ok (if isTVShow then CategoryDmShow else CategoryDmMovie)
  else
    match categoryFromCountries countries isTVShow with
    | some category => .ok category
    | none => .error "没有有效的国家信息"

/-! ## `GetSeasonNumberFromDirName` (src/unnamed/part_003, lines 547-570)

The Go code tries three regular expressions in order —
`(?i)season\s*(\d+)`, `(?i)第(\d+)季`, `(?i)S(\d+)` — and takes the first
pattern that matches anywhere in the name (leftmost occurrence, greedy
digit run, value parsed by `strconv.Atoi`; the digit strings occurring here
fit in an int, so `Atoi` never fails).  Each pattern is embedded as a
matcher tried at every start position. -/

/-- Consume `pat` (given in lowercase) case-insensitively from the front of
`cs`; return the remaining characters on success. -/
def matchCI : List Char → List Char → Option (List Char)
  | [], cs => some cs
  | _ :: _, [] => none
  | p :: ps, c :: cs => if charToLower c = p then matchCI ps cs else none

/-- The whitespace class `\s` of Go's regexp package. -/
def isGoSpace (c : Char) : Bool :=
  c = ' ' || c = '\t' || c = '\n' || c = Char.ofNat 11 || c = Char.ofNat 12 ||
    c = '\r'

/-- Numeric value of a digit run. -/
def digitsToNat (ds : List Char) : Nat :=
  ds.foldl (fun acc c => acc * 10 + (c.toNat - 48)) 0

/-- Match `(?i)season\s*(\d+)` at the start of `cs`. -/
def seasonPatternAt (cs : List Char) : Option Nat :=
  (matchCI "season".data cs).bind fun rest =>
    let ds := (rest.dropWhile isGoSpace).takeWhile Char.isDigit
    if ds.isEmpty then none else some (digitsToNat ds)

/-- Match `第(\d+)季` at the start of `cs`. -/
def cnSeasonPatternAt (cs : List Char) : Option Nat :=
  (matchCI "第".data cs).bind fun rest =>
    let ds := rest.takeWhile Char.isDigit
    if ds.isEmpty then none
    else
      match rest.drop ds.length with
      | c :: _ => if c = '季' then some (digitsToNat ds) else none
      | [] => none

/-- Match `(?i)S(\d+)` at the start of `cs`. -/
def sSeasonPatternAt (cs : List Char) : Option Nat :=
  (matchCI "s".data cs).bind fun rest =>
    let ds := rest.takeWhile Char.isDigit
    if ds.isEmpty then none else some (digitsToNat ds)

/-- Leftmost match of a pattern matcher over a character list. -/
def firstMatch (f : List Char → Option α) : List Char → Option α
  | [] => none
  | c :: rest =>
    match f (c :: rest) with
    | some n => some n
    | none => firstMatch f rest

/-- `GetSeasonNumberFromDirName(dirName)` (lines 547-570): the first pattern
with a match sets the season number; no match leaves the Go zero value. -/
def GetSeasonNumberFromDirName (dirName : String) : Nat :=
  match firstMatch seasonPatternAt dirName.data with
  | some n => n
  | none =>
    match firstMatch cnSeasonPatternAt dirName.data with
    | some n => n
    | none =>
      match firstMatch sSeasonPatternAt dirName.data with
      | some n => n
      | none => 0

/-! ## Filesystem model

A directory tree of named entries.  Directory listings carry
pairwise-distinct names (as on a real filesystem); file payloads are opaque
`Nat` tokens, so "untouched" is payload identity. -/

inductive FSNode where
  | file (data : Nat)
  | dir (entries : List (String × FSNode))
deriving Repr

/-- `entry.IsDir()`. -/
def FSNode.isDirNode : FSNode → Bool
  | .file _ => false
  | .dir _ => true

/-- Look a name up in a directory listing. -/
def lookupEntry (ds : List (String × FSNode)) (n : String) : Option FSNode :=
  (ds.find? (fun e => e.1 = n)).map (·.2)

/-- Drop the entry named `n` from a listing. -/
def removeEntry (ds : List (String × FSNode)) (n : String) :
    List (String × FSNode) :=
  ds.filter (fun e => e.1 ≠ n)

/-- Write `node` at name `n`: replace an existing entry in place, else
append. -/
def setEntry (ds : List (String × FSNode)) (n : String) (node : FSNode) :
    List (String × FSNode) :=
  if (lookupEntry ds n).isSome then
    ds.map (fun e => if e.1 = n then (n, node) else e)
  else ds ++ [(n, node)]

def setEntryOpt (ds : List (String × FSNode)) (n : String) :
    Option FSNode → List (String × FSNode)
  | some node => setEntry ds n node
  | none => ds

/-! ## `MoveDirectory` / `copyFile` (src/unnamed/part_003, lines 457-535)

`MoveDirectory(src, dst)` first tries `os.Rename`: on Linux this succeeds
when `dst` does not exist, when both are files (overwrite), or when `src`
is a directory and `dst` an empty directory.  Any other failure with an
existing source takes the copy branch: `MkdirAll(dst)` (fails when `dst` is
a file), then each child is copied — files by `os.Create`+`io.Copy`
(overwrites a plain file, fails on a directory), subdirectories by a
recursive `MoveDirectory` — aborting on the first error and leaving the
partially written destination in place; on success the source is removed
by the caller of `moveNode`.  `moveNode src dst` returns the resulting
node at the destination path and whether the move succeeded. -/

mutual

def moveNode : FSNode → Option FSNode → Option FSNode × Bool
  | src, none => (some src, true)
  | .file d, some (.file _) => (some (.file d), true)
  | .file _, some (.dir ds) => (some (.dir ds), false)
  | .dir es, some (.dir []) => (some (.dir es), true)
  | .dir es, some (.dir ds) =>
    let r := copyEntries es ds
    (some (.dir r.1), r.2)
  | .dir _, some (.file f) => (some (.file f), false)

def copyEntries : List (String × FSNode) → List (String × FSNode) →
    List (String × FSNode) × Bool
  | [], ds => (ds, true)
  | (n, .file d) :: rest, ds =>
    match lookupEntry ds n with
    | some (.dir _) => (ds, false)
    | _ => copyEntries rest (setEntry ds n (.file d))
  | (n, .dir ces) :: rest, ds =>
    match moveNode (.dir ces) (lookupEntry ds n) with
    | (nd, true) => copyEntries rest (setEntryOpt ds n nd)
    | (nd, false) => (setEntryOpt ds n nd, false)

end

/-! ## Season enumeration (src/unnamed/part_003, lines 572-659) -/

/-- Season numbers of the subdirectories of a listing, in listing order
(the loop body of `GetExistingSeasons` / `GetNewSeasons`: directories whose
name yields a positive season number). -/
def seasonsOfEntries (ds : List (String × FSNode)) : List Nat :=
  ds.filterMap (fun e =>
    if e.2.isDirNode && GetSeasonNumberFromDirName e.1 > 0 then
      some (GetSeasonNumberFromDirName e.1)
    else none)

/-- `GetExistingSeasons(targetMediaPath)` (lines 573-597): an absent target
yields the empty list without error; `ReadDir` on a non-directory fails. -/
def GetExistingSeasons : Option FSNode → Except Unit (List Nat)
  | none => .ok []
  | some (.file _) => .error ()
  | some (.dir ds) => .ok (seasonsOfEntries ds)

/-- The value computed by `GetNewSeasons` on a readable source directory:
seasons of the source's subdirectories; when there are none, fall back to
the season encoded in the source directory's own name. -/
def sourceSeasons (mediaDirName : String) (ses : List (String × FSNode)) :
    List Nat :=
  let newSeasons := seasonsOfEntries ses
  if newSeasons.isEmpty then
    if GetSeasonNumberFromDirName mediaDirName > 0 then
      [GetSeasonNumberFromDirName mediaDirName]
    else []
  else newSeasons

/-- `GetNewSeasons(mediaDir)` (lines 600-627); `ReadDir` fails on a
non-directory source. -/
def GetNewSeasons (mediaDirName : String) : FSNode → Except Unit (List Nat)
  | .file _ => .error ()
  | .dir ses => .ok (sourceSeasons mediaDirName ses)

/-- `HasNewSeasons(mediaDir, targetMediaPath)` (lines 630-659): the source
seasons absent from the destination, in source order. -/
def HasNewSeasons (mediaDirName : String) (src : FSNode)
    (dst : Option FSNode) : Except Unit (Bool × List Nat) := do
  let existingSeasons ← GetExistingSeasons dst
  let newSeasons ← GetNewSeasons mediaDirName src
  let seasonsToAdd := newSeasons.filter (fun n => !existingSeasons.contains n)
  return (seasonsToAdd.length > 0, seasonsToAdd)

/-! ## The move-or-merge block of `ClassifyAndMove`
(src/unnamed/part_003, lines 216-310) -/

inductive PlaceResult where
  /-- Destination absent: the whole source directory was relocated. -/
  | moved
  /-- Movie with the destination already present (line 299): skip. -/
  | skippedDuplicate
  /-- Series with no season absent from the destination (line 294): skip. -/
  | skippedNoNewSeasons
  /-- `HasNewSeasons` failed (line 223): skip without error. -/
  | skippedSeasonCheckError
  /-- Series merge performed; carries `seasonsToAdd` (line 221). -/
  | merged (seasonsToAdd : List Nat)
deriving Repr

/-- The merge loop (lines 237-283) over the snapshot of the source's
entries, threading the live source and destination listings.  An entry
absent from the destination is moved wholesale; a same-named entry is moved
through `MoveDirectory` only when it encodes a season not already present
at the destination (the destination's seasons are re-read on every
iteration, line 261); anything else is skipped with a warning.  A failed
in-loop move is logged and skipped, keeping the source entry. -/
def mergeEntries : List (String × FSNode) → List (String × FSNode) →
    List (String × FSNode) → List (String × FSNode) × List (String × FSNode)
  | [], ses, ds => (ses, ds)
  | (n, node) :: rest, ses, ds =>
    match lookupEntry ds n with
    | none => mergeEntries rest (removeEntry ses n) (ds ++ [(n, node)])
    | some dnode =>
      let sn := GetSeasonNumberFromDirName n
      if sn > 0 then
        if (seasonsOfEntries ds).contains sn then
          mergeEntries rest ses ds
        else
          match moveNode node (some dnode) with
          | (nd, true) => mergeEntries rest (removeEntry ses n) (setEntryOpt ds n nd)
          | (nd, false) => mergeEntries rest ses (setEntryOpt ds n nd)
      else mergeEntries rest ses ds

/-- The placement block of `ClassifyAndMove` (lines 216-310), as a function
of the source directory (name and node) and the node already at
`targetMediaPath` (if any).  Returns the source node left on disk (`none`
once deleted), the node at the destination path, and the outcome.

After a merge the code calls `os.RemoveAll(mediaDir)` (line 286), which
deletes the source directory together with everything still inside it, so
the source component becomes `none` even when entries were skipped. -/
def placeMedia (srcName : String) (src : FSNode) (dst : Option FSNode)
    (isTVShow : Bool) : Option FSNode × Option FSNode × PlaceResult :=
  match dst with
  | none => (none, some src, .moved)
  | some d =>
    if isTVShow then
      match HasNewSeasons srcName src (some d) with
      | .error _ => (some src, some d, .skippedSeasonCheckError)
      | .ok (hasNew, seasonsToAdd) =>
        if hasNew then
          match src, d with
          | .dir ses, .dir ds =>
            let r := mergeEntries ses ses ds
            (none, some (.dir r.2), .merged seasonsToAdd)
          | _, _ =>
            -- unreachable: `HasNewSeasons` only succeeds on two directories
            (some src, some d, .skippedSeasonCheckError)
        else (some src, some d, .skippedNoNewSeasons)
    else (some src, some d, .skippedDuplicate)

/-! ## The catalog store (src/database/database.go)

The SQLite tables become lists of rows.  `AUTOINCREMENT` ids are modelled
by a `nextId` counter; timestamps are `Nat`; the Go `int` version counter
is `Int` (the code compares it with `> 0`).  Rows written by this model
are always fully populated, so the NULL-defaulting branches of
`GetMediaRecords` (defaults: empty string, version 1, `false`) are inert
on them. -/

/-- `pat` is a suffix of `cs`. -/
def listSuffix (pat cs : List Char) : Bool :=
  listPrefix pat.reverse cs.reverse

/-- SQLite `category LIKE '%Show'` — `LIKE` is ASCII-case-insensitive. -/
def likeShow (category : String) : Bool :=
  listSuffix "show".data (lowerStr category).data

/-- The `media_records` row / Go `MediaRecord` struct
(src/database/database.go, lines 258-284). -/
structure MediaRecord where
  id : Nat
  fileName : String
  title : String
  originalTitle : String
  year : String
  country : String
  genres : String
  actors : String
  category : String
  sourcePath : String
  targetPath : String
  processedAt : Nat
  updatedAt : Nat
  runtime : String
  plot : String
  imdbID : String
  tmdbID : String
  season : String
  episode : String
  director : String
  writer : String
  rating : String
  resolution : String
  version : Int
  isComplete : Bool
deriving Repr, DecidableEq

/-- The `media_records` table plus its `AUTOINCREMENT` counter. -/
structure MediaDB where
  rows : List MediaRecord
  nextId : Nat
deriving Repr, DecidableEq

/-- The movie lookup of `InsertOrUpdateMediaRecord` (line 532):
`title = ? AND year = ? AND category NOT LIKE '%Show'`. -/
def movieKeyMatches (rec r : MediaRecord) : Bool :=
  r.title = rec.title && r.year = rec.year && !likeShow r.category

/-- The series lookup of `InsertOrUpdateMediaRecord` (line 536):
`title = ? AND year = ? AND season = ? AND category LIKE '%Show'`. -/
def seriesKeyMatches (rec r : MediaRecord) : Bool :=
  r.title = rec.title && r.year = rec.year && r.season = rec.season &&
    likeShow r.category

/-- The lookup dispatch (line 530): an empty `Season` means movie. -/
def keyMatches (rec : MediaRecord) : MediaRecord → Bool :=
  if rec.season = "" then movieKeyMatches rec else seriesKeyMatches rec

/-- The UPDATE of `InsertOrUpdateMediaRecord` (lines 593-639): every
mutable field is overwritten, `updated_at` refreshed, and `version` set to
the value read by the lookup plus one; `title`, `year`, `season` and
`processed_at` are not in the SET list. -/
def applyRecordUpdate (now : Nat) (rec : MediaRecord) (newVersion : Int)
    (x : MediaRecord) : MediaRecord :=
  { x with
    fileName := rec.fileName
    originalTitle := rec.originalTitle
    country := rec.country
    genres := rec.genres
    actors := rec.actors
    category := rec.category
    sourcePath := rec.sourcePath
    targetPath := rec.targetPath
    updatedAt := now
    runtime := rec.runtime
    plot := rec.plot
    imdbID := rec.imdbID
    tmdbID := rec.tmdbID
    episode := rec.episode
    director := rec.director
    writer := rec.writer
    rating := rec.rating
    resolution := rec.resolution
    version := newVersion
    isComplete := rec.isComplete }

/-- `InsertOrUpdateMediaRecord(record)` (src/database/database.go, lines
516-643).  The lookup (`QueryRow`) reads the first row matching the
record's natural key: if none exists the record is inserted with
`processed_at = updated_at = now` and version `max(record.Version, 1)`
(Go: `1` unless `record.Version > 0`); otherwise every row carrying the
found row's id is updated via `applyRecordUpdate` with version
`found.version + 1`. -/
def InsertOrUpdateMediaRecord (now : Nat) (rec : MediaRecord)
    (db : MediaDB) : MediaDB :=
  match db.rows.find? (keyMatches rec) with
  | none =>
    let version : Int := if rec.version > 0 then rec.version else 1
    let row := { rec with
      id := db.nextId
      processedAt := now
      updatedAt := now
      version := version }
    ⟨db.rows ++ [row], db.nextId + 1⟩
  | some r =>
    ⟨db.rows.map (fun x =>
        if x.id = r.id then applyRecordUpdate now rec (r.version + 1) x
        else x),
      db.nextId⟩

/-- `GetMediaRecords` with the empty filter (src/database/database.go,
lines 820-1038): no WHERE clause, so every stored row is returned; the
NULL-coalescing of the scan loop is the identity on fully populated
rows. -/
def GetMediaRecordsAll (db : MediaDB) : List MediaRecord :=
  db.rows

/-- A `missing_seasons` row / Go `MissingSeason` struct (lines 301-311).
Season numbers are the Go non-negative ints produced by the detection
loop. -/
structure MissingSeasonRow where
  id : Nat
  mediaId : Nat
  title : String
  originalTitle : String
  tmdbId : String
  season : Nat
  detectedAt : Nat
  updatedAt : Nat
  status : String
deriving Repr, DecidableEq

/-- A `missing_episodes` row / Go `MissingEpisode` struct (lines 287-298). -/
structure MissingEpisodeRow where
  id : Nat
  mediaId : Nat
  title : String
  originalTitle : String
  tmdbId : String
  season : Nat
  episode : Nat
  detectedAt : Nat
  updatedAt : Nat
  status : String
deriving Repr, DecidableEq

/-- The two gap tables with their `AUTOINCREMENT` counters. -/
structure MissingDB where
  seasons : List MissingSeasonRow
  seasonsNextId : Nat
  episodes : List MissingEpisodeRow
  episodesNextId : Nat
deriving Repr, DecidableEq

/-- The duplicate guard of `InsertMissingSeason` (line 653):
`title = ? AND tmdb_id = ? AND season = ? AND status = 'missing'`. -/
def missingSeasonKeyMatches (title tmdbId : String) (season : Nat)
    (r : MissingSeasonRow) : Bool :=
  r.title = title && r.tmdbId = tmdbId && r.season = season &&
    r.status = "missing"

/-- The duplicate guard of `InsertMissingEpisode` (line 691). -/
def missingEpisodeKeyMatches (title tmdbId : String) (season episode : Nat)
    (r : MissingEpisodeRow) : Bool :=
  r.title = title && r.tmdbId = tmdbId && r.season = season &&
    r.episode = episode && r.status = "missing"

/-- `InsertMissingSeason(record)` (src/database/database.go, lines
646-681): a no-op when a `"missing"`-status row already exists for the
natural key, otherwise an insert with status `"missing"` and fresh
timestamps. -/
def InsertMissingSeason (now : Nat) (rec : MissingSeasonRow)
    (db : MissingDB) : MissingDB :=
  match db.seasons.find?
      (missingSeasonKeyMatches rec.title rec.tmdbId rec.season) with
  | some _ => db
  | none =>
    { db with
      seasons := db.seasons ++
        [{ id := db.seasonsNextId
           mediaId := rec.mediaId
           title := rec.title
           originalTitle := rec.originalTitle
           tmdbId := rec.tmdbId
           season := rec.season
           detectedAt := now
           updatedAt := now
           status := "missing" }]
      seasonsNextId := db.seasonsNextId + 1 }

/-- `InsertMissingEpisode(record)` (src/database/database.go, lines
684-720). -/
def InsertMissingEpisode (now : Nat) (rec : MissingEpisodeRow)
    (db : MissingDB) : MissingDB :=
  match db.episodes.find?
      (missingEpisodeKeyMatches rec.title rec.tmdbId rec.season rec.episode) with
  | some _ => db
  | none =>
    { db with
      episodes := db.episodes ++
        [{ id := db.episodesNextId
           mediaId := rec.mediaId
           title := rec.title
           originalTitle := rec.originalTitle
           tmdbId := rec.tmdbId
           season := rec.season
           episode := rec.episode
           detectedAt := now
           updatedAt := now
           status := "missing" }]
      episodesNextId := db.episodesNextId + 1 }

/-! ## `IsSimplifiedChinese` (src/utils/chinese.go, lines 9-13)

The Go function is `regexp.MustCompile("[\\p{Han}]").MatchString(s)`: true
iff the string contains at least one character of the Unicode Han script.
`isHanChar` lists the Han script ranges of the Unicode table Go matches
against. -/

def isHanChar (c : Char) : Bool :=
  let n := c.toNat
  (0x2E80 ≤ n && n ≤ 0x2E99) || (0x2E9B ≤ n && n ≤ 0x2EF3) ||
  (0x2F00 ≤ n && n ≤ 0x2FD5) || n = 0x3005 || n = 0x3007 ||
  (0x3021 ≤ n && n ≤ 0x3029) || (0x3038 ≤ n && n ≤ 0x303B) ||
  (0x3400 ≤ n && n ≤ 0x4DBF) || (0x4E00 ≤ n && n ≤ 0x9FFF) ||
  (0xF900 ≤ n && n ≤ 0xFA6D) || (0xFA70 ≤ n && n ≤ 0xFAD9) ||
  (0x20000 ≤ n && n ≤ 0x2A6DF) || (0x2A700 ≤ n && n ≤ 0x2EBE0) ||
  (0x2F800 ≤ n && n ≤ 0x2FA1D) || (0x30000 ≤ n && n ≤ 0x3134A)

/-- `utils.IsSimplifiedChinese(s)`: `s` contains at least one Han
character. -/
def IsSimplifiedChinese (s : String) : Bool :=
  s.data.any isHanChar

/-! ## The parsed NFO record (src/parser/nfo.go, lines 10-34) -/

/-- The Go `parser.NFO` struct; `rootTag` is `XMLName.Local` (`"movie"` or
`"tvshow"`), actors are (name, role) pairs. -/
structure NFO where
  rootTag : String
  title : String
  originalTitle : String
  year : String
  country : List String
  genres : List String
  actors : List (String × String)
  runtime : String
  plot : String
  imdbID : String
  tmdbID : String
  season : String
  episode : String
  director : String
  writer : String
  rating : String
deriving Repr, DecidableEq

/-- `nfo.IsTVShow()` (src/parser/nfo.go, lines 74-77). -/
def NFO.IsTVShow (n : NFO) : Bool :=
  n.rootTag = "tvshow"

/-- `isNFOResolved(nfo)` (src/unnamed/part_003, lines 335-358). -/
def isNFOResolved (nfo : NFO) : Bool :=
  if nfo.title = "" then false
  else if !nfo.genres.isEmpty || !nfo.country.isEmpty || nfo.imdbID ≠ "" ||
      nfo.tmdbID ≠ "" || nfo.plot ≠ "" || !nfo.actors.isEmpty then true
  else IsSimplifiedChinese nfo.title && nfo.year ≠ ""

/-- `formatActors(actors)` (src/unnamed/part_003, lines 538-544). -/
def formatActors (actors : List (String × String)) : String :=
  String.intercalate ", " (actors.map (·.1))

/-! ## `extractResolutionFromFileName` (src/unnamed/part_003, lines
688-705): patterns `(?i)(\d{3,4}p)`, `(?i)(\d{3,4}i)`, `(?i)(4k|8k)` tried
in order, the captured text uppercased. -/

/-- ASCII uppercasing (the inverse of `charToLower` on letters). -/
def charToUpper (c : Char) : Char :=
  if c.toNat ≥ 97 ∧ c.toNat ≤ 122 then Char.ofNat (c.toNat - 32) else c

/-- Match `\d{k}` followed by the (lowercased) suffix letter at the start
of `cs`; yields the uppercased capture. -/
def tryResolutionDigits (k : Nat) (suffix : Char) (cs : List Char) :
    Option String :=
  let ds := cs.take k
  if ds.length = k && ds.all Char.isDigit then
    match cs.drop k with
    | e :: _ =>
      if charToLower e = suffix then some ⟨(ds ++ [e]).map charToUpper⟩
      else none
    | [] => none
  else none

/-- Match `(?i)(\d{3,4}x)` at the start of `cs` (greedy: four digits
preferred over three). -/
def resolutionPatternAt (suffix : Char) (cs : List Char) : Option String :=
  match tryResolutionDigits 4 suffix cs with
  | some r => some r
  | none => tryResolutionDigits 3 suffix cs

/-- Match `(?i)(4k|8k)` at the start of `cs`. -/
def fourKPatternAt (cs : List Char) : Option String :=
  match cs with
  | a :: b :: _ =>
    if (a = '4' || a = '8') && charToLower b = 'k' then
      some ⟨[a, charToUpper b]⟩
    else none
  | _ => none

/-- `extractResolutionFromFileName(fileName)` (lines 688-705). -/
def extractResolutionFromFileName (fileName : String) : String :=
  match firstMatch (resolutionPatternAt 'p') fileName.data with
  | some r => r
  | none =>
    match firstMatch (resolutionPatternAt 'i') fileName.data with
    | some r => r
    | none =>
      match firstMatch fourKPatternAt fileName.data with
      | some r => r
      | none => ""

/-! ## `DetectMissingSeasonsAndEpisodes` (src/unnamed/part_003, lines
707-759)

The TMDB season-count lookup becomes the `seasonLookup` parameter and the
node at the record's destination path becomes `dst`.  Failed
`InsertMissingSeason` / final `InsertOrUpdateMediaRecord` calls are only
logged in Go; the model's table operations are total. -/

/-- The `MissingSeason` value the detection loop hands to
`InsertMissingSeason` (lines 736-742); the unset Go fields keep their zero
values. -/
def mkMissingSeason (rec : MediaRecord) (i : Nat) : MissingSeasonRow :=
  { id := 0
    mediaId := rec.id
    title := rec.title
    originalTitle := rec.originalTitle
    tmdbId := rec.tmdbID
    season := i
    detectedAt := 0
    updatedAt := 0
    status := "" }

/-- The detection loop (lines 726-747): for every season number `i` in
`[1, totalSeasons]` absent from `existingSeasons`, upsert a missing-season
row (a failed insert is only logged; the model's insert is total). -/
def recordMissingSeasons (now : Nat) (rec : MediaRecord)
    (existingSeasons : List Nat) (totalSeasons : Nat) (msdb : MissingDB) :
    MissingDB :=
  (List.range' 1 totalSeasons).foldl (fun acc i =>
    if existingSeasons.contains i then acc
    else InsertMissingSeason now (mkMissingSeason rec i) acc) msdb

def DetectMissingSeasonsAndEpisodes (now : Nat)
    (seasonLookup : Except String Nat) (dst : Option FSNode)
    (rec : MediaRecord) (msdb : MissingDB) (mdb : MediaDB) :
    Except String (MissingDB × MediaDB × MediaRecord) :=
  if rec.tmdbID = "" then .ok (msdb, mdb, rec)
  else
    match seasonLookup with
    | .error e => .error ("获取剧集总季数失败: " ++ e)
    | .ok totalSeasons =>
      match GetExistingSeasons dst with
      | .error _ => .error "获取已存在季数失败"
      | .ok existingSeasons =>
        let msdb2 := recordMissingSeasons now rec existingSeasons totalSeasons msdb
        let isComplete : Bool := existingSeasons.length = totalSeasons
        let rec2 := { rec with isComplete := isComplete }
        .ok (msdb2, InsertOrUpdateMediaRecord now rec2 mdb, rec2)

/-- `checkSeasonCompleteness` (lines 662-685). -/
def checkSeasonCompleteness (seasonLookup : Except String Nat)
    (existingSeasons : List Nat) : Except String (Bool × List Nat × Nat) :=
  match seasonLookup with
  | .error e => .error e
  | .ok totalSeasons =>
    let missingSeasons :=
      (List.range' 1 totalSeasons).filter
        (fun i => !existingSeasons.contains i)
    .ok (missingSeasons.isEmpty, missingSeasons, totalSeasons)

/-- `ReportSeasonStatus` (lines 780-805): read-only; it only logs. -/
def ReportSeasonStatus (seasonLookup : Except String Nat)
    (dst : Option FSNode) : Except Unit Unit :=
  match GetExistingSeasons dst with
  | .error e => .error e
  | .ok existingSeasons =>
    match checkSeasonCompleteness seasonLookup existingSeasons with
    | .error _ => .ok ()
    | .ok _ => .ok ()

/-! ## `ClassifyAndMove` (src/unnamed/part_003, lines 56-332)

The world visible to one invocation: the node at the media source
directory, the node at `targetMediaPath`, and the two stores.  (The
`MkdirAll` of the enclosing category directory, line 148, touches neither
of those paths and is not tracked.) -/

structure World where
  src : Option FSNode
  dst : Option FSNode
  mdb : MediaDB
  msdb : MissingDB

/-- Country refinement of `ClassifyAndMove` (lines 98-111): with a TMDB id
and a configured API key, a successful lookup replaces the NFO country
list; a lookup failure is logged and keeps the NFO data. -/
def effectiveCountries (nfoCountry : List String) (tmdbID apiKey : String)
    (countryLookup : Except String (List String)) : List String :=
  if tmdbID ≠ "" then
    if apiKey ≠ "" then
      match countryLookup with
      | .error _ => nfoCountry
      | .ok tmdbCountries => tmdbCountries
    else nfoCountry
  else nfoCountry

/-- `getExistingTVShowRecord(title, year)` (lines 762-777): first stored
record whose category contains `"Show"` with matching title and year. -/
def getExistingTVShowRecord (title year : String) (db : MediaDB) :
    Option MediaRecord :=
  (GetMediaRecordsAll db).find? (fun r =>
    strContains r.category "Show" && r.title = title && r.year = year)

/-- The record preparation of `ClassifyAndMove` (lines 159-214): build a
fresh record, or refresh the mutable fields of the existing series record
(its `Title`, `SourcePath`, `ProcessedAt`, `Season`, `Episode`, `Version`
and `IsComplete` are kept). -/
def buildMediaRecord (now : Nat) (nfoFileName : String) (nfo : NFO)
    (countries : List String) (category mediaDirPath targetMediaPath
    resolution : String) (existing : Option MediaRecord) : MediaRecord :=
  match existing with
  | none =>
    { id := 0
      fileName := nfoFileName
      title := nfo.title
      originalTitle := nfo.originalTitle
      year := nfo.year
      country := String.intercalate ", " countries
      genres := String.intercalate ", " nfo.genres
      actors := formatActors nfo.actors
      category := category
      sourcePath := mediaDirPath
      targetPath := targetMediaPath
      processedAt := now
      updatedAt := 0
      runtime := nfo.runtime
      plot := nfo.plot
      imdbID := nfo.imdbID
      tmdbID := nfo.tmdbID
      season := nfo.season
      episode := nfo.episode
      director := nfo.director
      writer := nfo.writer
      rating := nfo.rating
      resolution := resolution
      version := 0
      isComplete := false }
  | some r =>
    { r with
      fileName := nfoFileName
      originalTitle := nfo.originalTitle
      year := nfo.year
      country := String.intercalate ", " countries
      genres := String.intercalate ", " nfo.genres
      actors := formatActors nfo.actors
      category := category
      targetPath := targetMediaPath
      runtime := nfo.runtime
      plot := nfo.plot
      imdbID := nfo.imdbID
      tmdbID := nfo.tmdbID
      director := nfo.director
      writer := nfo.writer
      rating := nfo.rating
      resolution := resolution }

/-- The post-placement phase of `ClassifyAndMove` (lines 312-331): persist
the record (a storage failure is only logged; the model's store is total),
then for a series with a TMDB id run the missing-season detection — a
detection error is logged, never propagated (lines 319-321) — and the
read-only `ReportSeasonStatus`.  The function always returns `nil`. -/
def classifyAndMoveTail (now : Nat) (isTVShow : Bool) (tmdbID : String)
    (seasonLookup : Except String Nat) (rec : MediaRecord) (w : World) :
    World × Except String Unit :=
  let mdb1 := InsertOrUpdateMediaRecord now rec w.mdb
  if isTVShow && tmdbID ≠ "" then
    let afterDetect :=
      match DetectMissingSeasonsAndEpisodes now seasonLookup w.dst rec
          w.msdb mdb1 with
      | .error _ => { w with mdb := mdb1 }
      | .ok (msdb2, mdb2, _) => { w with mdb := mdb2, msdb := msdb2 }
    let _ := ReportSeasonStatus seasonLookup afterDetect.dst
    (afterDetect, .ok ())
  else ({ w with mdb := mdb1 }, .ok ())

/-- `filepath.Ext(name)`: the suffix starting at the final dot (empty when
the name has no dot). -/
def filepathExt (name : String) : String :=
  let rev := name.data.reverse
  let pre := rev.takeWhile (fun c => c ≠ '.')
  if pre.length = rev.length then "" else ⟨'.' :: pre.reverse⟩

/-- The NFO count of the media directory (lines 71-81): non-directory
entries whose lowercased extension is `.nfo`. -/
def nfoCountOf (ses : List (String × FSNode)) : Nat :=
  (ses.filter (fun e =>
    !e.2.isDirNode && lowerStr (filepathExt e.1) = ".nfo")).length

/-- The marker files of `isProjectDirectory` (lines 36-53). -/
def projectFiles : List String :=
  ["go.mod", "main.go", "go.sum", "CMakeLists.txt", "Makefile",
   "package.json", "requirements.txt", "README.md", "README.txt", ".git"]

/-- `isProjectDirectory(dirPath)`: some marker file or directory exists in
the listing. -/
def isProjectDirectory (ses : List (String × FSNode)) : Bool :=
  projectFiles.any (fun f => (lookupEntry ses f).isSome)

/-- `ClassifyAndMove(nfoPath)` (src/unnamed/part_003, lines 56-332) for an
already-parsed NFO (`parser.ParseNFO` is the external Metadata Reader;
its failure propagates before anything here runs).  `nfoFileName` is
`filepath.Base(nfoPath)`, `srcName` is `filepath.Base(mediaDir)`,
`mediaDirPath`/`targetMediaPath` the two path strings, `apiKey` the
configured TMDB key, and the two lookups stand for the TMDB calls.  All
skip paths return `nil` with the world untouched; placement and
persistence only happen past every gate. -/
def ClassifyAndMove (now : Nat) (nfoFileName srcName mediaDirPath
    targetMediaPath : String) (nfo : NFO) (apiKey : String)
    (countryLookup : Except String (List String))
    (seasonLookup : Except String Nat) (w : World) :
    World × Except String Unit :=
  match w.src with
  | none => (w, .error "读取目录失败")
  | some (.file _) => (w, .error "读取目录失败")
  | some (.dir ses) =>
    if nfoCountOf ses > 1 then (w, .ok ())
    else if !isNFOResolved nfo then (w, .ok ())
    else
      let isTVShow := nfo.IsTVShow
      let countries :=
        effectiveCountries nfo.country nfo.tmdbID apiKey countryLookup
      if countries.isEmpty then (w, .ok ())
      else
        match DetermineCategory countries isTVShow nfo.genres with
        | .error e => (w, .error ("确定分类失败: " ++ e))
        | .ok category =>
          if isProjectDirectory ses then (w, .ok ())
          else if !IsSimplifiedChinese nfo.title then (w, .ok ())
          else if nfo.genres.any (fun g => !IsSimplifiedChinese g) then
            (w, .ok ())
          else
            let resolution := extractResolutionFromFileName nfoFileName
            let existing :=
              if isTVShow then getExistingTVShowRecord nfo.title nfo.year w.mdb
              else none
            let rec0 := buildMediaRecord now nfoFileName nfo countries
              category mediaDirPath targetMediaPath resolution existing
            match placeMedia srcName (.dir ses) w.dst isTVShow with
            | (src', dst', .moved) =>
              classifyAndMoveTail now isTVShow nfo.tmdbID seasonLookup rec0
                { w with src := src', dst := dst' }
            | (src', dst', .merged _) =>
              classifyAndMoveTail now isTVShow nfo.tmdbID seasonLookup rec0
                { w with src := src', dst := dst' }
            | (src', dst', .skippedDuplicate) =>
              ({ w with src := src', dst := dst' }, .ok ())
            | (src', dst', .skippedNoNewSeasons) =>
              ({ w with src := src', dst := dst' }, .ok ())
            | (src', dst', .skippedSeasonCheckError) =>
              ({ w with src := src', dst := dst' }, .ok ())

/-! ## Sample data for concrete witnesses -/

/-- A movie record as `ClassifyAndMove` builds it (the spec's 无间道
scenario). -/
def sampleMovieRecord : MediaRecord :=
  { id := 0
    fileName := "无间道.nfo"
    title := "无间道"
    originalTitle := "Infernal Affairs"
    year := "2002"
    country := "中国香港"
    genres := "犯罪, 剧情"
    actors := "刘德华, 梁朝伟"
    category := "CnMovie"
    sourcePath := "/downloads/无间道"
    targetPath := "/cloud/CnMovie/无间道"
    processedAt := 0
    updatedAt := 0
    runtime := "101"
    plot := "剧情简介"
    imdbID := "tt0338564"
    tmdbID := "10776"
    season := ""
    episode := ""
    director := "刘伟强"
    writer := "麦兆辉"
    rating := "8.5"
    resolution := "1080P"
    version := 0
    isComplete := false }

/-- The stored row for `sampleMovieRecord` at version 5. -/
def sampleMovieRow : MediaRecord :=
  { sampleMovieRecord with
    id := 1
    version := 5
    processedAt := 3
    updatedAt := 3 }

/-- A store holding exactly the sample row. -/
def sampleMovieDB : MediaDB :=
  ⟨[sampleMovieRow], 2⟩

/-- The sample movie re-classified as a documentary: `DetermineCategory`
returns `JlShow` for any title with a documentary genre, series or not, so
a documentary movie record carries `Season = ""` together with a category
ending in `"Show"`. -/
def sampleDocMovieRecord : MediaRecord :=
  { sampleMovieRecord with category := "JlShow", genres := "纪录片" }

/-- A series record (season 1 of a show with a TMDB id). -/
def sampleSeriesRecord : MediaRecord :=
  { sampleMovieRecord with
    title := "某剧"
    originalTitle := "Some Show"
    year := "2020"
    category := "CnShow"
    season := "1"
    episode := "12"
    tmdbID := "999"
    targetPath := "/cloud/CnShow/某剧" }

/-- The stored row for `sampleSeriesRecord` at version 2. -/
def sampleSeriesRow : MediaRecord :=
  { sampleSeriesRecord with
    id := 1
    version := 2
    processedAt := 3
    updatedAt := 3 }

/-- A store holding exactly the sample series row. -/
def sampleSeriesDB : MediaDB :=
  ⟨[sampleSeriesRow], 2⟩

/-- Empty gap tables. -/
def emptyMissingDB : MissingDB :=
  ⟨[], 1, [], 1⟩

/-- A `"missing"`-status row for season 2 of the sample series. -/
def sampleMissingSeasonRow : MissingSeasonRow :=
  { id := 1
    mediaId := 1
    title := "某剧"
    originalTitle := "Some Show"
    tmdbId := "999"
    season := 2
    detectedAt := 3
    updatedAt := 3
    status := "missing" }

/-- Gap tables holding exactly the sample missing-season row. -/
def sampleMissingDB : MissingDB :=
  ⟨[sampleMissingSeasonRow], 2, [], 1⟩

/-- A parsed NFO whose title carries no Han character. -/
def sampleEnglishNFO : NFO :=
  { rootTag := "movie"
    title := "Inception"
    originalTitle := "Inception"
    year := "2010"
    country := ["USA"]
    genres := ["Sci-Fi"]
    actors := []
    runtime := "148"
    plot := "dream heist"
    imdbID := "tt1375666"
    tmdbID := ""
    season := ""
    episode := ""
    director := "Nolan"
    writer := "Nolan"
    rating := "8.8" }

/-- The media directory listing holding that NFO and its video file. -/
def sampleSrcListing : List (String × FSNode) :=
  [("Inception.nfo", .file 1), ("Inception.mkv", .file 2)]

/-- A world whose source directory is the sample listing. -/
def sampleWorld : World :=
  { src := some (.dir sampleSrcListing)
    dst := none
    mdb := ⟨[], 1⟩
    msdb := emptyMissingDB }

/-! # Theorems for the claims -/

/-! ## List helper lemmas shared by the store proofs -/

theorem findOfFilterSingle {α} (p : α → Bool) (l : List α) (r : α)
    (h : l.filter p = [r]) : l.find? p = some r := by
  induction l with
  | nil => simp at h
  | cons a t ih =>
    by_cases hpa : p a
    · rw [List.filter_cons_of_pos hpa] at h
      obtain ⟨rfl, -⟩ := List.cons_eq_cons.1 h
      simp [List.find?, hpa]
    · rw [List.filter_cons_of_neg hpa] at h
      have hb : p a = false := by simpa using hpa
      simp [List.find?_cons, hb, ih h]

theorem filterEqNilOfMem {α} {p : α → Bool} {l : List α} (h : l.filter p = [])
    {a : α} (ha : a ∈ l) : p a = false := by
  by_contra hc
  have hpa : p a = true := by simpa using hc
  have hm := List.mem_filter.2 ⟨ha, hpa⟩
  rw [h] at hm
  simp at hm

theorem filterMapSingle {α} (p : α → Bool) (g : α → α) (l : List α) (r : α)
    (hf : l.filter p = [r])
    (hgr : ∀ x ∈ l, x ≠ r → g x = x)
    (hpg : p (g r) = true) :
    (l.map g).filter p = [g r] := by
  have hpr : p r = true := by
    have : r ∈ l.filter p := by rw [hf]; simp
    exact (List.mem_filter.1 this).2
  induction l with
  | nil => simp at hf
  | cons a t ih =>
    by_cases hpa : p a
    · rw [List.filter_cons_of_pos hpa] at hf
      obtain ⟨rfl, hrest⟩ := List.cons_eq_cons.1 hf
      have htail : (t.map g).filter p = [] := by
        rw [List.filter_eq_nil_iff]
        intro b hb
        obtain ⟨x, hx, rfl⟩ := List.mem_map.1 hb
        by_cases hxr : x = a
        · subst hxr
          have := filterEqNilOfMem hrest hx
          rw [this] at hpr
          exact absurd hpr (by simp)
        · rw [hgr x (List.mem_cons_of_mem _ hx) hxr]
          exact Bool.not_eq_true _ ▸ (by simpa using filterEqNilOfMem hrest hx)
      rw [List.map_cons, List.filter_cons_of_pos hpg, htail]
    · rw [List.filter_cons_of_neg hpa] at hf
      have har : a ≠ r := by
        rintro rfl
        exact hpa (by simpa using hpr)
      have hga : g a = a := hgr a (List.mem_cons_self a t) har
      rw [List.map_cons, hga, List.filter_cons_of_neg hpa]
      exact ih hf (fun x hx hxr => hgr x (List.mem_cons_of_mem _ hx) hxr)

/-- The natural key (title, year, season-or-movie) and the key-consistency
of the category survive `applyRecordUpdate`: the updated row still matches
the same lookup. -/
theorem keyMatchesUpdate (now : Nat) (rec r0 : MediaRecord) (v : Int)
    (h : keyMatches rec r0 = true)
    (hmov : rec.season = "" → likeShow rec.category = false)
    (hser : rec.season ≠ "" → likeShow rec.category = true) :
    keyMatches rec (applyRecordUpdate now rec v r0) = true := by
  by_cases hs : rec.season = ""
  · simp only [keyMatches, if_pos hs, movieKeyMatches, Bool.and_eq_true] at h ⊢
    obtain ⟨⟨ht, hy⟩, -⟩ := h
    simp [applyRecordUpdate, ht, hy, hmov hs]
  · simp only [keyMatches, if_neg hs, seriesKeyMatches, Bool.and_eq_true] at h ⊢
    obtain ⟨⟨⟨ht, hy⟩, hsn⟩, -⟩ := h
    simp [applyRecordUpdate, ht, hy, hsn, hser hs]

/-- One upsert hitting a store with exactly one row matching the record's
natural key updates that row in place: afterwards exactly the updated row
(version incremented by one) matches, the row ids are unchanged and no row
was inserted. -/
theorem upsertUpdateStep (now : Nat) (rec : MediaRecord) (db : MediaDB)
    (r0 : MediaRecord)
    (hids : (db.rows.map (·.id)).Nodup)
    (hkey : db.rows.filter (keyMatches rec) = [r0])
    (hmov : rec.season = "" → likeShow rec.category = false)
    (hser : rec.season ≠ "" → likeShow rec.category = true) :
    (InsertOrUpdateMediaRecord now rec db).rows.filter (keyMatches rec) =
      [applyRecordUpdate now rec (r0.version + 1) r0]
    ∧ (InsertOrUpdateMediaRecord now rec db).rows.map (·.id) =
        db.rows.map (·.id)
    ∧ (InsertOrUpdateMediaRecord now rec db).nextId = db.nextId := by
  have hfind : db.rows.find? (keyMatches rec) = some r0 :=
    findOfFilterSingle _ _ _ hkey
  have hr0mem : r0 ∈ db.rows := by
    have : r0 ∈ db.rows.filter (keyMatches rec) := by rw [hkey]; simp
    exact List.mem_of_mem_filter this
  have hr0p : keyMatches rec r0 = true := by
    have : r0 ∈ db.rows.filter (keyMatches rec) := by rw [hkey]; simp
    exact (List.mem_filter.1 this).2
  have hrows : (InsertOrUpdateMediaRecord now rec db).rows =
      db.rows.map (fun x =>
        if x.id = r0.id then applyRecordUpdate now rec (r0.version + 1) x
        else x) := by
    simp [InsertOrUpdateMediaRecord, hfind]
  have hnext : (InsertOrUpdateMediaRecord now rec db).nextId = db.nextId := by
    simp [InsertOrUpdateMediaRecord, hfind]
  have hinj := List.inj_on_of_nodup_map hids
  have hgr : ∀ x ∈ db.rows, x ≠ r0 →
      (if x.id = r0.id then applyRecordUpdate now rec (r0.version + 1) x
       else x) = x := by
    intro x hx hxr
    rw [if_neg]
    intro hid
    exact hxr (hinj hx hr0mem hid)
  have hgid : ∀ x : MediaRecord,
      ((if x.id = r0.id then applyRecordUpdate now rec (r0.version + 1) x
        else x)).id = x.id := by
    intro x
    by_cases hid : x.id = r0.id
    · simp [if_pos hid, applyRecordUpdate]
    · simp [if_neg hid]
  refine ⟨?_, ?_, hnext⟩
  · rw [hrows]
    have hstep := filterMapSingle (keyMatches rec)
      (fun x => if x.id = r0.id then
        applyRecordUpdate now rec (r0.version + 1) x else x)
      db.rows r0 hkey hgr
      (by simpa using keyMatchesUpdate now rec r0 (r0.version + 1) hr0p hmov hser)
    simpa using hstep
  · rw [hrows, List.map_map]
    exact List.map_congr_left (fun x _ => hgid x)

/-- An upsert never lowers the version of a surviving row: a stored row's
version is either untouched or incremented by exactly one. -/
theorem upsertVersionMonotone (db : MediaDB) (rec : MediaRecord) (now : Nat)
    (hids : (db.rows.map (·.id)).Nodup)
    (hfresh : ∀ x ∈ db.rows, x.id < db.nextId) :
    ∀ x ∈ db.rows, ∀ y ∈ (InsertOrUpdateMediaRecord now rec db).rows,
      y.id = x.id → y.version = x.version ∨ y.version = x.version + 1 := by
  have hinj := List.inj_on_of_nodup_map hids
  intro x hx y hy hid
  cases hfind : db.rows.find? (keyMatches rec) with
  | none =>
    rw [InsertOrUpdateMediaRecord] at hy
    rw [hfind] at hy
    simp only at hy
    rcases List.mem_append.1 hy with hyl | hyr
    · left
      rw [hinj hyl hx hid]
    · exfalso
      have : y.id = db.nextId := by
        have : y = { rec with
            id := db.nextId
            processedAt := now
            updatedAt := now
            version := if rec.version > 0 then rec.version else 1 } := by
          simpa using hyr
        rw [this]
      have hlt := hfresh x hx
      omega
  | some r =>
    have hrmem : r ∈ db.rows := List.mem_of_find?_eq_some hfind
    rw [InsertOrUpdateMediaRecord] at hy
    rw [hfind] at hy
    simp only at hy
    obtain ⟨x0, hx0, rfl⟩ := List.mem_map.1 hy
    by_cases hxid : x0.id = r.id
    · rw [if_pos hxid] at hid ⊢
      have hid' : x0.id = x.id := hid
      have hx0eq : x0 = x := hinj hx0 hx hid'
      have hrx : r = x := hinj hrmem hx (by rw [← hx0eq, ← hxid])
      right
      show r.version + 1 = x.version + 1
      rw [hrx]
    · rw [if_neg hxid] at hid ⊢
      left
      rw [hinj hx0 hx hid]

/-- The conditional guarantee behind the upsert: for a record whose
category is Show-suffix-consistent with its season field (a movie record's
category does not end in `Show`, a series record's does), starting from a
store holding exactly one row at version `N` for the record's natural key,
upserting the same field values twice leaves exactly one row at version
`N + 2`; and every upsert leaves each surviving row's version unchanged or
incremented by exactly 1.  The consistency hypotheses are essential: the
program violates the unconditional statement for documentary/variety
movies (see `upsertDocumentaryMovie_duplicates_row`). -/
theorem upsertCatalog_idempotent_version (now1 now2 : Nat) (rec : MediaRecord)
    (db : MediaDB) (r0 : MediaRecord) (N : Int)
    (hids : (db.rows.map (·.id)).Nodup)
    (hkey : db.rows.filter (keyMatches rec) = [r0])
    (hver : r0.version = N)
    (hmov : rec.season = "" → likeShow rec.category = false)
    (hser : rec.season ≠ "" → likeShow rec.category = true) :
    (∃ u, (InsertOrUpdateMediaRecord now2 rec
          (InsertOrUpdateMediaRecord now1 rec db)).rows.filter
            (keyMatches rec) = [u]
        ∧ u.version = N + 2)
    ∧ (∀ (dbx : MediaDB) (recx : MediaRecord) (nowx : Nat),
        (dbx.rows.map (·.id)).Nodup →
        (∀ x ∈ dbx.rows, x.id < dbx.nextId) →
        ∀ x ∈ dbx.rows, ∀ y ∈ (InsertOrUpdateMediaRecord nowx recx dbx).rows,
          y.id = x.id → y.version = x.version ∨ y.version = x.version + 1) := by
  constructor
  · obtain ⟨h1f, h1ids, -⟩ := upsertUpdateStep now1 rec db r0 hids hkey hmov hser
    have hids1 :
        ((InsertOrUpdateMediaRecord now1 rec db).rows.map (·.id)).Nodup := by
      rw [h1ids]; exact hids
    obtain ⟨h2f, -, -⟩ := upsertUpdateStep now2 rec _ _ hids1 h1f hmov hser
    refine ⟨_, h2f, ?_⟩
    show r0.version + 1 + 1 = N + 2
    rw [hver]; ring
  · intro dbx recx nowx hidsx hfreshx
    exact upsertVersionMonotone dbx recx nowx hidsx hfreshx

/-- Concrete instance of the conditional guarantee: the sample movie
record upserted twice against a store holding its row at version 5 yields
a single row at version 7. -/
theorem upsertCatalog_idempotent_version_witness :
    ∃ u, (InsertOrUpdateMediaRecord 11 sampleMovieRecord
        (InsertOrUpdateMediaRecord 10 sampleMovieRecord
          sampleMovieDB)).rows.filter (keyMatches sampleMovieRecord) = [u]
      ∧ u.version = (5 : Int) + 2 :=
  (upsertCatalog_idempotent_version 10 11 sampleMovieRecord sampleMovieDB
    sampleMovieRow 5 (by decide) (by decide) (by decide)
    (fun _ => by decide) (fun h => absurd rfl h)).1

/-- C2 (code bug exhibit): the claim's universal fails in the program for
documentary/variety movie records.  `sampleDocMovieRecord` has
`Season = ""` (movie) and category `"JlShow"` — exactly what
`DetermineCategory` assigns a documentary movie — so the movie lookup
`category NOT LIKE '%Show'` of `InsertOrUpdateMediaRecord` can never see
its stored row.  Upserted twice into an empty store it leaves TWO rows for
the (title, year) natural key, both at version 1; upserted twice against a
store holding the key's row at version 5, it leaves two rows at versions 6
and 1 — a duplicate row at a reset version instead of one row at
version 7. -/
theorem upsertDocumentaryMovie_duplicates_row :
    ((InsertOrUpdateMediaRecord 11 sampleDocMovieRecord
        (InsertOrUpdateMediaRecord 10 sampleDocMovieRecord
          (⟨[], 1⟩ : MediaDB))).rows.map
      (fun r => (r.title, r.year, r.version))) =
      [("无间道", "2002", 1), ("无间道", "2002", 1)]
    ∧ ((InsertOrUpdateMediaRecord 11 sampleDocMovieRecord
        (InsertOrUpdateMediaRecord 10 sampleDocMovieRecord
          sampleMovieDB)).rows.map
      (fun r => (r.title, r.year, r.version))) =
      [("无间道", "2002", 6), ("无间道", "2002", 1)] := by
  decide

/-- C1: for every non-empty countries list whose genres trigger no
documentary/variety/anime override, `DetermineCategory` is decided solely
by the first entry of the list: a first entry matching the Japan/Korea
keyword set yields `Jp&KrShow`/`Jp&KrMovie`, a first entry matching the
China/HK/Taiwan keyword set yields `CnShow`/`CnMovie`, and any other first
entry yields `EnShow`/`EnMovie`; in particular
`DetermineCategory(["Germany","Japan"], true, [])` is `EnShow`, not
`Jp&KrShow`, regardless of later entries. -/
theorem determineCategory_first_country_decides
    (c : String) (rest : List String) (isTVShow : Bool) (genres : List String)
    (hdoc : genres.any isDocumentaryGenre = false)
    (hvar : genres.any isVarietyGenre = false)
    (hani : genres.any isAnimeGenre = false) :
    DetermineCategory (c :: rest) isTVShow genres =
        .ok (countryCategory c isTVShow)
    ∧ (isJpKrCountry c = true →
        DetermineCategory (c :: rest) isTVShow genres =
          .ok (if isTVShow then CategoryJpKrShow else CategoryJpKrMovie))
    ∧ (isJpKrCountry c = false → isCnCountry c = true →
        DetermineCategory (c :: rest) isTVShow genres =
          .ok (if isTVShow then CategoryCnShow else CategoryCnMovie))
    ∧ (isJpKrCountry c = false → isCnCountry c = false →
        DetermineCategory (c :: rest) isTVShow genres =
          .ok (if isTVShow then CategoryEnShow else CategoryEnMovie))
    ∧ DetermineCategory ["Germany", "Japan"] true [] = .ok CategoryEnShow := by
  have hmain : DetermineCategory (c :: rest) isTVShow genres =
      .ok (countryCategory c isTVShow) := by
    simp [DetermineCategory, hdoc, hvar, hani, categoryFromCountries]
  refine ⟨hmain, ?_, ?_, ?_, ?_⟩
  · intro hjp
    rw [hmain]
    simp [countryCategory, hjp]
  · intro hjp hcn
    rw [hmain]
    simp [countryCategory, hjp, hcn]
  · intro hjp hcn
    rw [hmain]
    simp [countryCategory, hjp, hcn]
  · have hg : DetermineCategory ["Germany", "Japan"] true [] =
        .ok (countryCategory "Germany" true) := by
      simp [DetermineCategory, categoryFromCountries]
    have hc : countryCategory "Germany" true = CategoryEnShow := by decide
    rw [hg, hc]

/-- C1 witness: the theorem applied with first country `"日本"` (Japan) and
second `"中国"` for a series with no genre overrides. -/
theorem determineCategory_first_country_decides_witness :
    DetermineCategory ["日本", "中国"] true [] = .ok CategoryJpKrShow := by
  have h := determineCategory_first_country_decides "日本" ["中国"] true []
    rfl rfl rfl
  have hjp : isJpKrCountry "日本" = true := by decide
  simpa using h.2.1 hjp

/-- C7 counterexample: the claim says classification fails with the
no-country-information error for all inputs with an empty countries list,
but a documentary genre overrides the country scan before the country list
is consulted, so `DetermineCategory([], false, ["documentary"])` succeeds
with the Documentary category. -/
theorem determineCategory_empty_countries_documentary_ok :
    DetermineCategory [] false ["documentary"] = .ok CategoryJlShow := by
  have h : ["documentary"].any isDocumentaryGenre = true := by decide
  simp [DetermineCategory, h]

/-- C7 (amended): for all inputs with an empty countries list whose genres
trigger no documentary/variety/anime override, `DetermineCategory` fails
with the "没有有效的国家信息" (no valid country information) error rather
than returning a default category. -/
theorem determineCategory_empty_countries_errors
    (isTVShow : Bool) (genres : List String)
    (hdoc : genres.any isDocumentaryGenre = false)
    (hvar : genres.any isVarietyGenre = false)
    (hani : genres.any isAnimeGenre = false) :
    DetermineCategory [] isTVShow genres = .error "没有有效的国家信息" := by
  simp [DetermineCategory, hdoc, hvar, hani, categoryFromCountries]

/-- C7 witness: the amended theorem applied to the empty genre list. -/
theorem determineCategory_empty_countries_errors_witness :
    DetermineCategory [] false [] = .error "没有有效的国家信息" :=
  determineCategory_empty_countries_errors false [] rfl rfl rfl

/-- C4: for a series whose destination already contains "Season 1" and
whose source contains "Season 1" and "Season 2" (with arbitrary contents),
placement moves only "Season 2" into the destination, leaves the
destination's "Season 1" untouched (same contents `d1`), and reports the
merged seasons as exactly `[2]`; and whenever the source contains no
season absent from the destination, the invocation ends as
skipped-no-new-seasons and moves nothing (the world is unchanged). -/
theorem placeMedia_merge_safety (s1 s2 d1 : List (String × FSNode))
    (srcName : String) :
    placeMedia srcName
        (.dir [("Season 1", .dir s1), ("Season 2", .dir s2)])
        (some (.dir [("Season 1", .dir d1)])) true =
      (none, some (.dir [("Season 1", .dir d1), ("Season 2", .dir s2)]),
        .merged [2])
    ∧ (∀ (srcName' : String) (ses ds : List (String × FSNode)),
        (sourceSeasons srcName' ses).filter
            (fun n => !(seasonsOfEntries ds).contains n) = [] →
        placeMedia srcName' (.dir ses) (some (.dir ds)) true =
          (some (.dir ses), some (.dir ds), .skippedNoNewSeasons)) := by
  constructor
  · have h1 : GetSeasonNumberFromDirName "Season 1" = 1 := by decide
    have h2 : GetSeasonNumberFromDirName "Season 2" = 2 := by decide
    simp [placeMedia, HasNewSeasons, GetExistingSeasons, GetNewSeasons,
      sourceSeasons, seasonsOfEntries, FSNode.isDirNode, h1, h2,
      mergeEntries, lookupEntry, removeEntry, setEntryOpt, setEntry,
      List.filterMap, List.find?, List.contains, List.filter, Bind.bind,
      Except.bind, pure, Except.pure]
  · intro srcName' ses ds h
    have h' : List.filter (fun n => !decide (n ∈ seasonsOfEntries ds))
        (sourceSeasons srcName' ses) = [] := by simpa using h
    simp [placeMedia, HasNewSeasons, GetExistingSeasons, GetNewSeasons, h',
      Bind.bind, Except.bind, pure, Except.pure]

/-- C4 witness: the no-new-seasons part applied to a source and destination
both holding exactly "Season 1". -/
theorem placeMedia_merge_safety_witness :
    placeMedia "Show" (.dir [("Season 1", .dir [])])
        (some (.dir [("Season 1", .dir [])])) true =
      (some (.dir [("Season 1", .dir [])]),
        some (.dir [("Season 1", .dir [])]), .skippedNoNewSeasons) :=
  (placeMedia_merge_safety [] [] [] "Show").2 "Show"
    [("Season 1", .dir [])] [("Season 1", .dir [])] (by decide)

/-- C3 (code bug exhibit): during a series merge, the source entry
"Season 1" — same-named at the destination and with its season not among
the new seasons — is skipped by the merge loop, which never overwrites the
destination's "Season 1" and leaves the skipped entry (holding
`ep1.mkv`) in the source listing; but the subsequent
`os.RemoveAll(mediaDir)` then deletes the whole source directory,
including that skipped entry, so the final source state is `none` and the
skipped entry's contents are lost, contradicting the claim (and the
code's own comment/log, which say only the now-empty source directory is
removed). -/
theorem mergeRemoveAll_deletes_skipped_source_entry :
    mergeEntries
        [("Season 1", .dir [("ep1.mkv", FSNode.file 7)]),
         ("Season 2", .dir [])]
        [("Season 1", .dir [("ep1.mkv", FSNode.file 7)]),
         ("Season 2", .dir [])]
        [("Season 1", .dir [])] =
      ([("Season 1", .dir [("ep1.mkv", FSNode.file 7)])],
       [("Season 1", .dir []), ("Season 2", .dir [])])
    ∧ placeMedia "Show"
        (.dir [("Season 1", .dir [("ep1.mkv", FSNode.file 7)]),
               ("Season 2", .dir [])])
        (some (.dir [("Season 1", .dir [])])) true =
      (none, some (.dir [("Season 1", .dir []), ("Season 2", .dir [])]),
        .merged [2]) :=
  ⟨rfl, rfl⟩

theorem insertMissingSeason_noop (now : Nat) (rec : MissingSeasonRow)
    (db : MissingDB) (r : MissingSeasonRow)
    (hf : db.seasons.find?
        (missingSeasonKeyMatches rec.title rec.tmdbId rec.season) = some r) :
    InsertMissingSeason now rec db = db := by
  simp [InsertMissingSeason, hf]

theorem insertMissingSeason_count_self (now : Nat) (rec : MissingSeasonRow)
    (db : MissingDB)
    (h : db.seasons.countP
        (missingSeasonKeyMatches rec.title rec.tmdbId rec.season) ≤ 1) :
    (InsertMissingSeason now rec db).seasons.countP
      (missingSeasonKeyMatches rec.title rec.tmdbId rec.season) = 1 := by
  cases hf : db.seasons.find?
      (missingSeasonKeyMatches rec.title rec.tmdbId rec.season) with
  | some r =>
    have hmem := List.mem_of_find?_eq_some hf
    have hp := List.find?_some hf
    have hpos : 0 < db.seasons.countP
        (missingSeasonKeyMatches rec.title rec.tmdbId rec.season) :=
      List.countP_pos_iff.2 ⟨r, hmem, hp⟩
    rw [insertMissingSeason_noop now rec db r hf]
    omega
  | none =>
    have hzero : db.seasons.countP
        (missingSeasonKeyMatches rec.title rec.tmdbId rec.season) = 0 := by
      rw [List.countP_eq_zero]
      intro a ha
      exact List.find?_eq_none.1 hf a ha
    simp [InsertMissingSeason, hf, List.countP_append, hzero,
      missingSeasonKeyMatches]

theorem insertMissingSeason_count_other (now : Nat) (rec : MissingSeasonRow)
    (db : MissingDB) (p : MissingSeasonRow → Bool)
    (hp : p { id := db.seasonsNextId
              mediaId := rec.mediaId
              title := rec.title
              originalTitle := rec.originalTitle
              tmdbId := rec.tmdbId
              season := rec.season
              detectedAt := now
              updatedAt := now
              status := "missing" } = false) :
    (InsertMissingSeason now rec db).seasons.countP p =
      db.seasons.countP p := by
  cases hf : db.seasons.find?
      (missingSeasonKeyMatches rec.title rec.tmdbId rec.season) with
  | some r => rw [insertMissingSeason_noop now rec db r hf]
  | none => simp [InsertMissingSeason, hf, List.countP_append, hp]

theorem insertMissingSeason_find_mono (now : Nat) (rec : MissingSeasonRow)
    (db : MissingDB) (p : MissingSeasonRow → Bool)
    (hf : (db.seasons.find? p).isSome) :
    ((InsertMissingSeason now rec db).seasons.find? p).isSome := by
  obtain ⟨a, ha, hpa⟩ := List.find?_isSome.1 hf
  cases hg : db.seasons.find?
      (missingSeasonKeyMatches rec.title rec.tmdbId rec.season) with
  | some r => rw [insertMissingSeason_noop now rec db r hg]; exact hf
  | none =>
    apply List.find?_isSome.2
    exact ⟨a, by simp [InsertMissingSeason, hg, List.mem_append, ha], hpa⟩


theorem foldKeepsOne (now : Nat) (rec : MediaRecord) (existing : List Nat)
    (L : List Nat) (msdb : MissingDB) (i : Nat)
    (h : msdb.seasons.countP
        (missingSeasonKeyMatches rec.title rec.tmdbID i) = 1) :
    ((L.foldl (fun acc j =>
        if existing.contains j then acc
        else InsertMissingSeason now (mkMissingSeason rec j) acc)
      msdb).seasons.countP
        (missingSeasonKeyMatches rec.title rec.tmdbID i)) = 1 := by
  induction L generalizing msdb with
  | nil => simpa using h
  | cons j t ih =>
    rw [List.foldl_cons]
    by_cases hc : existing.contains j
    · rw [if_pos hc]; exact ih msdb h
    · rw [if_neg hc]
      by_cases hji : j = i
      · subst hji
        have hpos : 0 < msdb.seasons.countP
            (missingSeasonKeyMatches rec.title rec.tmdbID j) := by omega
        obtain ⟨r, hr, hpr⟩ := List.countP_pos_iff.1 hpos
        have hf : msdb.seasons.find?
            (missingSeasonKeyMatches (mkMissingSeason rec j).title
              (mkMissingSeason rec j).tmdbId (mkMissingSeason rec j).season) ≠
            none := by
          intro hnone
          exact absurd hpr (by simpa using List.find?_eq_none.1 hnone r hr)
        cases hfe : msdb.seasons.find?
            (missingSeasonKeyMatches (mkMissingSeason rec j).title
              (mkMissingSeason rec j).tmdbId (mkMissingSeason rec j).season) with
        | none => exact absurd hfe hf
        | some r0 =>
          rw [insertMissingSeason_noop now (mkMissingSeason rec j) msdb r0 hfe]
          exact ih msdb h
      · have hother := insertMissingSeason_count_other now
          (mkMissingSeason rec j) msdb
          (missingSeasonKeyMatches rec.title rec.tmdbID i)
          (by simp [missingSeasonKeyMatches, mkMissingSeason, hji])
        exact ih _ (by rw [hother]; exact h)

theorem foldSetsOne (now : Nat) (rec : MediaRecord) (existing : List Nat)
    (L : List Nat) (msdb : MissingDB) (i : Nat)
    (hmem : i ∈ L) (habsent : existing.contains i = false)
    (h : msdb.seasons.countP
        (missingSeasonKeyMatches rec.title rec.tmdbID i) ≤ 1) :
    ((L.foldl (fun acc j =>
        if existing.contains j then acc
        else InsertMissingSeason now (mkMissingSeason rec j) acc)
      msdb).seasons.countP
        (missingSeasonKeyMatches rec.title rec.tmdbID i)) = 1 := by
  induction L generalizing msdb with
  | nil => simp at hmem
  | cons j t ih =>
    rw [List.foldl_cons]
    by_cases hji : j = i
    · subst hji
      rw [if_neg (by simpa using habsent)]
      have h1 : (InsertMissingSeason now (mkMissingSeason rec j)
          msdb).seasons.countP
            (missingSeasonKeyMatches rec.title rec.tmdbID j) = 1 := by
        have := insertMissingSeason_count_self now (mkMissingSeason rec j)
          msdb (by simpa [mkMissingSeason] using h)
        simpa [mkMissingSeason] using this
      exact foldKeepsOne now rec existing t _ j h1
    · have hmem' : i ∈ t := by
        rcases List.mem_cons.1 hmem with h' | h'
        · exact absurd h'.symm hji
        · exact h'
      by_cases hc : existing.contains j
      · rw [if_pos hc]
        exact ih msdb hmem' h
      · rw [if_neg hc]
        have hother := insertMissingSeason_count_other now
          (mkMissingSeason rec j) msdb
          (missingSeasonKeyMatches rec.title rec.tmdbID i)
          (by simp [missingSeasonKeyMatches, mkMissingSeason, hji])
        exact ih _ hmem' (by rw [hother]; exact h)

theorem foldNoop (now : Nat) (rec : MediaRecord) (existing : List Nat)
    (L : List Nat) (msdb : MissingDB)
    (h : ∀ i ∈ L, existing.contains i = false →
        (msdb.seasons.find?
          (missingSeasonKeyMatches rec.title rec.tmdbID i)).isSome) :
    (L.foldl (fun acc j =>
        if existing.contains j then acc
        else InsertMissingSeason now (mkMissingSeason rec j) acc)
      msdb) = msdb := by
  induction L with
  | nil => rfl
  | cons j t ih =>
    rw [List.foldl_cons]
    by_cases hc : existing.contains j
    · rw [if_pos hc]
      exact ih (fun i hi ha => h i (List.mem_cons_of_mem _ hi) ha)
    · rw [if_neg hc]
      have hsome := h j (List.mem_cons_self j t) (by simpa using hc)
      cases hfe : msdb.seasons.find?
          (missingSeasonKeyMatches rec.title rec.tmdbID j) with
      | none => rw [hfe] at hsome; simp at hsome
      | some r0 =>
        rw [insertMissingSeason_noop now (mkMissingSeason rec j) msdb r0
          (by simpa [mkMissingSeason] using hfe)]
        exact ih (fun i hi ha => h i (List.mem_cons_of_mem _ hi) ha)


/-- C5: for a series record with an external (TMDB) identifier, a
successful season-count lookup of `totalSeasons` and a readable destination
directory, missing-detection upserts exactly one missing-season row for
every season number in `[1, totalSeasons]` absent from the season markers
under the destination path, sets the record's completeness flag to
`len(presentSeasons) == totalSeasons`, and writes that flag back to the
owning catalog row. -/
theorem detectMissing_records_gaps_and_flag (now total : Nat)
    (ds : List (String × FSNode)) (rec : MediaRecord) (msdb : MissingDB)
    (mdb : MediaDB) (r0 : MediaRecord)
    (htm : rec.tmdbID ≠ "")
    (hcount : ∀ i, msdb.seasons.countP
        (missingSeasonKeyMatches rec.title rec.tmdbID i) ≤ 1)
    (hids : (mdb.rows.map (·.id)).Nodup)
    (hkey : mdb.rows.filter (keyMatches rec) = [r0])
    (hmov : rec.season = "" → likeShow rec.category = false)
    (hser : rec.season ≠ "" → likeShow rec.category = true) :
    ∃ msdb2 mdb2 rec2,
      DetectMissingSeasonsAndEpisodes now (.ok total) (some (.dir ds)) rec
          msdb mdb = .ok (msdb2, mdb2, rec2)
      ∧ rec2.isComplete = decide ((seasonsOfEntries ds).length = total)
      ∧ (∀ i, 1 ≤ i → i ≤ total →
          (seasonsOfEntries ds).contains i = false →
          msdb2.seasons.countP
            (missingSeasonKeyMatches rec.title rec.tmdbID i) = 1)
      ∧ (∃ u, mdb2.rows.filter (keyMatches rec) = [u]
          ∧ u.isComplete = rec2.isComplete) := by
  have hkk : keyMatches { rec with
      isComplete := decide ((seasonsOfEntries ds).length = total) } =
      keyMatches rec := rfl
  refine ⟨recordMissingSeasons now rec (seasonsOfEntries ds) total msdb,
    InsertOrUpdateMediaRecord now
      { rec with isComplete := decide ((seasonsOfEntries ds).length = total) }
      mdb,
    { rec with isComplete := decide ((seasonsOfEntries ds).length = total) },
    ?_, rfl, ?_, ?_⟩
  · simp [DetectMissingSeasonsAndEpisodes, htm, GetExistingSeasons]
  · intro i h1 h2 habs
    have hmem : i ∈ List.range' 1 total := by
      rw [List.mem_range']
      exact ⟨i - 1, by omega, by omega⟩
    exact foldSetsOne now rec (seasonsOfEntries ds) _ msdb i hmem habs
      (hcount i)
  · obtain ⟨hf, -, -⟩ := upsertUpdateStep now
      { rec with isComplete := decide ((seasonsOfEntries ds).length = total) }
      mdb r0 hids (by rw [hkk]; exact hkey) hmov hser
    rw [hkk] at hf
    exact ⟨_, hf, rfl⟩


theorem insertMissingEpisode_noop (now : Nat) (rec : MissingEpisodeRow)
    (db : MissingDB) (r : MissingEpisodeRow)
    (hf : db.episodes.find?
        (missingEpisodeKeyMatches rec.title rec.tmdbId rec.season
          rec.episode) = some r) :
    InsertMissingEpisode now rec db = db := by
  simp [InsertMissingEpisode, hf]

theorem insertMissingSeason_preserves_unique (now : Nat)
    (rec : MissingSeasonRow) (db : MissingDB)
    (hinv : ∀ t tid : String, ∀ s : Nat,
      db.seasons.countP (missingSeasonKeyMatches t tid s) ≤ 1) :
    ∀ t tid : String, ∀ s : Nat,
      (InsertMissingSeason now rec db).seasons.countP
        (missingSeasonKeyMatches t tid s) ≤ 1 := by
  intro t tid s
  cases hf : db.seasons.find?
      (missingSeasonKeyMatches rec.title rec.tmdbId rec.season) with
  | some r =>
    rw [insertMissingSeason_noop now rec db r hf]
    exact hinv t tid s
  | none =>
    by_cases hnew : missingSeasonKeyMatches t tid s
        { id := db.seasonsNextId
          mediaId := rec.mediaId
          title := rec.title
          originalTitle := rec.originalTitle
          tmdbId := rec.tmdbId
          season := rec.season
          detectedAt := now
          updatedAt := now
          status := "missing" } = true
    · have hkeys : t = rec.title ∧ tid = rec.tmdbId ∧ s = rec.season := by
        simp [missingSeasonKeyMatches] at hnew
        obtain ⟨⟨h1, h2⟩, h3⟩ := hnew
        exact ⟨h1.symm, h2.symm, h3.symm⟩
      obtain ⟨rfl, rfl, rfl⟩ := hkeys
      have hzero : db.seasons.countP
          (missingSeasonKeyMatches rec.title rec.tmdbId rec.season) = 0 := by
        rw [List.countP_eq_zero]
        intro a ha
        exact List.find?_eq_none.1 hf a ha
      simp [InsertMissingSeason, hf, List.countP_append, hzero, hnew]
    · have hb : missingSeasonKeyMatches t tid s
          { id := db.seasonsNextId
            mediaId := rec.mediaId
            title := rec.title
            originalTitle := rec.originalTitle
            tmdbId := rec.tmdbId
            season := rec.season
            detectedAt := now
            updatedAt := now
            status := "missing" } = false := by
        simpa using hnew
      have := insertMissingSeason_count_other now rec db
        (missingSeasonKeyMatches t tid s) hb
      rw [this]
      exact hinv t tid s

theorem insertMissingEpisode_preserves_unique (now : Nat)
    (rec : MissingEpisodeRow) (db : MissingDB)
    (hinv : ∀ t tid : String, ∀ s e : Nat,
      db.episodes.countP (missingEpisodeKeyMatches t tid s e) ≤ 1) :
    ∀ t tid : String, ∀ s e : Nat,
      (InsertMissingEpisode now rec db).episodes.countP
        (missingEpisodeKeyMatches t tid s e) ≤ 1 := by
  intro t tid s e
  cases hf : db.episodes.find?
      (missingEpisodeKeyMatches rec.title rec.tmdbId rec.season
        rec.episode) with
  | some r =>
    rw [insertMissingEpisode_noop now rec db r hf]
    exact hinv t tid s e
  | none =>
    by_cases hnew : missingEpisodeKeyMatches t tid s e
        { id := db.episodesNextId
          mediaId := rec.mediaId
          title := rec.title
          originalTitle := rec.originalTitle
          tmdbId := rec.tmdbId
          season := rec.season
          episode := rec.episode
          detectedAt := now
          updatedAt := now
          status := "missing" } = true
    · have hkeys : t = rec.title ∧ tid = rec.tmdbId ∧ s = rec.season ∧
          e = rec.episode := by
        simp [missingEpisodeKeyMatches] at hnew
        obtain ⟨⟨⟨h1, h2⟩, h3⟩, h4⟩ := hnew
        exact ⟨h1.symm, h2.symm, h3.symm, h4.symm⟩
      obtain ⟨rfl, rfl, rfl, rfl⟩ := hkeys
      have hzero : db.episodes.countP
          (missingEpisodeKeyMatches rec.title rec.tmdbId rec.season
            rec.episode) = 0 := by
        rw [List.countP_eq_zero]
        intro a ha
        exact List.find?_eq_none.1 hf a ha
      simp [InsertMissingEpisode, hf, List.countP_append, hzero, hnew]
    · have hb : missingEpisodeKeyMatches t tid s e
          { id := db.episodesNextId
            mediaId := rec.mediaId
            title := rec.title
            originalTitle := rec.originalTitle
            tmdbId := rec.tmdbId
            season := rec.season
            episode := rec.episode
            detectedAt := now
            updatedAt := now
            status := "missing" } = false := by
        simpa using hnew
      cases hg : db.episodes.find?
          (missingEpisodeKeyMatches rec.title rec.tmdbId rec.season
            rec.episode) with
      | some r =>
        rw [insertMissingEpisode_noop now rec db r hg]
        exact hinv t tid s e
      | none =>
        have hle := hinv t tid s e
        simp [InsertMissingEpisode, hg, List.countP_append, hb]
        omega


theorem detectTwiceAux (now1 now2 total : Nat) (ds : List (String × FSNode))
    (rec : MediaRecord) (msdb : MissingDB) (mdb : MediaDB)
    (hcount : ∀ i, msdb.seasons.countP
        (missingSeasonKeyMatches rec.title rec.tmdbID i) ≤ 1)
    (msdb1 : MissingDB) (mdb1 : MediaDB) (rec1 : MediaRecord)
    (hdet : DetectMissingSeasonsAndEpisodes now1 (.ok total)
        (some (.dir ds)) rec msdb mdb = .ok (msdb1, mdb1, rec1)) :
    ∃ mdb2, DetectMissingSeasonsAndEpisodes now2 (.ok total)
        (some (.dir ds)) rec1 msdb1 mdb1 = .ok (msdb1, mdb2, rec1) := by
  by_cases htm : rec.tmdbID = ""
  · rw [DetectMissingSeasonsAndEpisodes, if_pos htm] at hdet
    simp only [Except.ok.injEq, Prod.mk.injEq] at hdet
    obtain ⟨rfl, rfl, rfl⟩ := hdet
    exact ⟨mdb, by rw [DetectMissingSeasonsAndEpisodes, if_pos htm]⟩
  · rw [DetectMissingSeasonsAndEpisodes, if_neg htm] at hdet
    simp only [GetExistingSeasons, Except.ok.injEq, Prod.mk.injEq] at hdet
    obtain ⟨rfl, rfl, rfl⟩ := hdet
    have htm1 : ({ rec with isComplete := decide ((seasonsOfEntries ds).length = total) } : MediaRecord).tmdbID ≠ "" := htm
    have hnoop : recordMissingSeasons now2 { rec with isComplete := decide ((seasonsOfEntries ds).length = total) } (seasonsOfEntries ds) total (recordMissingSeasons now1 rec (seasonsOfEntries ds) total msdb) = recordMissingSeasons now1 rec (seasonsOfEntries ds) total msdb := by
      apply foldNoop
      intro i hi ha
      have hone := foldSetsOne now1 rec (seasonsOfEntries ds) _ msdb i hi ha
        (hcount i)
      have hpos : 0 < (recordMissingSeasons now1 rec (seasonsOfEntries ds)
          total msdb).seasons.countP
            (missingSeasonKeyMatches rec.title rec.tmdbID i) := by
        rw [recordMissingSeasons]
        omega
      obtain ⟨r, hr, hpr⟩ := List.countP_pos_iff.1 hpos
      exact List.find?_isSome.2 ⟨r, hr, hpr⟩
    simp only [DetectMissingSeasonsAndEpisodes, if_neg htm1,
      GetExistingSeasons, hnoop]
    exact ⟨_, rfl⟩

/-- C5 witness: the theorem applied to the sample series (total 2 seasons,
only "Season 1" on disk). -/
theorem detectMissing_records_gaps_and_flag_witness :
    ∃ msdb2 mdb2 rec2,
      DetectMissingSeasonsAndEpisodes 7 (.ok 2)
          (some (.dir [("Season 1", .dir [])])) sampleSeriesRecord
          emptyMissingDB sampleSeriesDB = .ok (msdb2, mdb2, rec2)
      ∧ rec2.isComplete =
          decide ((seasonsOfEntries [("Season 1", .dir [])]).length = 2)
      ∧ (∀ i, 1 ≤ i → i ≤ 2 →
          (seasonsOfEntries [("Season 1", .dir [])]).contains i = false →
          msdb2.seasons.countP
            (missingSeasonKeyMatches sampleSeriesRecord.title
              sampleSeriesRecord.tmdbID i) = 1)
      ∧ (∃ u, mdb2.rows.filter (keyMatches sampleSeriesRecord) = [u]
          ∧ u.isComplete = rec2.isComplete) :=
  detectMissing_records_gaps_and_flag 7 2 [("Season 1", .dir [])]
    sampleSeriesRecord emptyMissingDB sampleSeriesDB sampleSeriesRow
    (by decide) (fun i => by simp [emptyMissingDB]) (by decide) (by decide)
    (fun h => absurd h (by decide)) (fun _ => by decide)

/-- C6: at most one `"missing"`-status row ever exists per
(title, external id, season) tuple and per (title, external id, season,
episode) tuple — inserting a missing-item record whose natural key already
carries a `"missing"`-status row is a no-op, the at-most-one invariant is
preserved by every insert in both gap tables, and running the detection a
second time against an unchanged on-disk season set leaves the set of
`"missing"` rows and the record's completeness flag exactly as the first
run left them. -/
theorem missingRows_unique_and_detection_idempotent :
    (∀ (now : Nat) (rec : MissingSeasonRow) (db : MissingDB)
        (r : MissingSeasonRow),
      db.seasons.find?
          (missingSeasonKeyMatches rec.title rec.tmdbId rec.season) = some r →
      InsertMissingSeason now rec db = db)
    ∧ (∀ (now : Nat) (rec : MissingEpisodeRow) (db : MissingDB)
        (r : MissingEpisodeRow),
      db.episodes.find?
          (missingEpisodeKeyMatches rec.title rec.tmdbId rec.season
            rec.episode) = some r →
      InsertMissingEpisode now rec db = db)
    ∧ (∀ (now : Nat) (rec : MissingSeasonRow) (db : MissingDB),
      (∀ t tid : String, ∀ s : Nat,
        db.seasons.countP (missingSeasonKeyMatches t tid s) ≤ 1) →
      ∀ t tid : String, ∀ s : Nat,
        (InsertMissingSeason now rec db).seasons.countP
          (missingSeasonKeyMatches t tid s) ≤ 1)
    ∧ (∀ (now : Nat) (rec : MissingEpisodeRow) (db : MissingDB),
      (∀ t tid : String, ∀ s e : Nat,
        db.episodes.countP (missingEpisodeKeyMatches t tid s e) ≤ 1) →
      ∀ t tid : String, ∀ s e : Nat,
        (InsertMissingEpisode now rec db).episodes.countP
          (missingEpisodeKeyMatches t tid s e) ≤ 1)
    ∧ (∀ (now1 now2 total : Nat) (ds : List (String × FSNode))
        (rec : MediaRecord) (msdb : MissingDB) (mdb : MediaDB)
        (msdb1 : MissingDB) (mdb1 : MediaDB) (rec1 : MediaRecord),
      (∀ i, msdb.seasons.countP
          (missingSeasonKeyMatches rec.title rec.tmdbID i) ≤ 1) →
      DetectMissingSeasonsAndEpisodes now1 (.ok total) (some (.dir ds)) rec
          msdb mdb = .ok (msdb1, mdb1, rec1) →
      ∃ mdb2, DetectMissingSeasonsAndEpisodes now2 (.ok total)
          (some (.dir ds)) rec1 msdb1 mdb1 = .ok (msdb1, mdb2, rec1)) := by
  refine ⟨insertMissingSeason_noop, insertMissingEpisode_noop,
    insertMissingSeason_preserves_unique,
    insertMissingEpisode_preserves_unique, ?_⟩
  intro now1 now2 total ds rec msdb mdb msdb1 mdb1 rec1 hcount hdet
  exact detectTwiceAux now1 now2 total ds rec msdb mdb hcount msdb1 mdb1
    rec1 hdet

/-- C6 witness: re-inserting the already-present sample missing-season row
is a no-op. -/
theorem missingRows_unique_and_detection_idempotent_witness :
    InsertMissingSeason 5 sampleMissingSeasonRow sampleMissingDB =
      sampleMissingDB :=
  missingRows_unique_and_detection_idempotent.1 5 sampleMissingSeasonRow
    sampleMissingDB sampleMissingSeasonRow (by decide)
/-- C8 counterexample: the claim says an inserted record queried back by
its natural key returns all fields unchanged except version and the
updated-timestamp; but the insert stores `now` into `processed_at` as
well, so a record inserted with processed-timestamp 0 at time 5 is
queried back with processed-timestamp 5. -/
theorem roundTrip_changes_processedAt :
    ((GetMediaRecordsAll (InsertOrUpdateMediaRecord 5 sampleMovieRecord
        ⟨[], 1⟩)).find? (keyMatches sampleMovieRecord)).map
          (·.processedAt) = some 5
    ∧ sampleMovieRecord.processedAt = 0 := by
  decide

/-- C8 (amended): a catalog record inserted (no row yet matches its natural
key) and then queried back by that key returns every field unchanged
except the auto-assigned row id, the version (defaulted to 1 when the
record carried no positive version), the updated-timestamp and the
processed-timestamp (both set to the insertion time). -/
theorem roundTrip_preserves_fields (now : Nat) (rec : MediaRecord)
    (db : MediaDB)
    (habsent : db.rows.find? (keyMatches rec) = none)
    (hmov : rec.season = "" → likeShow rec.category = false)
    (hser : rec.season ≠ "" → likeShow rec.category = true) :
    ∃ u, (GetMediaRecordsAll (InsertOrUpdateMediaRecord now rec
          db)).find? (keyMatches rec) = some u
      ∧ u.fileName = rec.fileName ∧ u.title = rec.title
      ∧ u.originalTitle = rec.originalTitle ∧ u.year = rec.year
      ∧ u.country = rec.country ∧ u.genres = rec.genres
      ∧ u.actors = rec.actors ∧ u.category = rec.category
      ∧ u.sourcePath = rec.sourcePath ∧ u.targetPath = rec.targetPath
      ∧ u.runtime = rec.runtime ∧ u.plot = rec.plot
      ∧ u.imdbID = rec.imdbID ∧ u.tmdbID = rec.tmdbID
      ∧ u.season = rec.season ∧ u.episode = rec.episode
      ∧ u.director = rec.director ∧ u.writer = rec.writer
      ∧ u.rating = rec.rating ∧ u.resolution = rec.resolution
      ∧ u.isComplete = rec.isComplete
      ∧ u.processedAt = now ∧ u.updatedAt = now
      ∧ u.version = (if rec.version > 0 then rec.version else 1) := by
  have hnewkey : keyMatches rec { rec with
      id := db.nextId
      processedAt := now
      updatedAt := now
      version := if rec.version > 0 then rec.version else 1 } = true := by
    by_cases hs : rec.season = ""
    · simp [keyMatches, hs, movieKeyMatches, hmov hs]
    · simp [keyMatches, hs, seriesKeyMatches, hser hs]
  have hrows : (InsertOrUpdateMediaRecord now rec db).rows =
      db.rows ++ [{ rec with
        id := db.nextId
        processedAt := now
        updatedAt := now
        version := if rec.version > 0 then rec.version else 1 }] := by
    simp [InsertOrUpdateMediaRecord, habsent]
  refine ⟨{ rec with
      id := db.nextId
      processedAt := now
      updatedAt := now
      version := if rec.version > 0 then rec.version else 1 },
    ?_, rfl, rfl, rfl, rfl, rfl, rfl, rfl, rfl, rfl, rfl, rfl, rfl,
    rfl, rfl, rfl, rfl, rfl, rfl, rfl, rfl, rfl, rfl, rfl, rfl⟩
  rw [GetMediaRecordsAll, hrows, List.find?_append, habsent]
  simp [List.find?, hnewkey]

/-- C8 witness: the amended theorem applied to the sample movie record
inserted into an empty store at time 5. -/
theorem roundTrip_preserves_fields_witness :
    ∃ u, (GetMediaRecordsAll (InsertOrUpdateMediaRecord 5 sampleMovieRecord
          (⟨[], 1⟩ : MediaDB))).find? (keyMatches sampleMovieRecord) = some u
      ∧ u.fileName = sampleMovieRecord.fileName
      ∧ u.title = sampleMovieRecord.title
      ∧ u.originalTitle = sampleMovieRecord.originalTitle
      ∧ u.year = sampleMovieRecord.year
      ∧ u.country = sampleMovieRecord.country
      ∧ u.genres = sampleMovieRecord.genres
      ∧ u.actors = sampleMovieRecord.actors
      ∧ u.category = sampleMovieRecord.category
      ∧ u.sourcePath = sampleMovieRecord.sourcePath
      ∧ u.targetPath = sampleMovieRecord.targetPath
      ∧ u.runtime = sampleMovieRecord.runtime
      ∧ u.plot = sampleMovieRecord.plot
      ∧ u.imdbID = sampleMovieRecord.imdbID
      ∧ u.tmdbID = sampleMovieRecord.tmdbID
      ∧ u.season = sampleMovieRecord.season
      ∧ u.episode = sampleMovieRecord.episode
      ∧ u.director = sampleMovieRecord.director
      ∧ u.writer = sampleMovieRecord.writer
      ∧ u.rating = sampleMovieRecord.rating
      ∧ u.resolution = sampleMovieRecord.resolution
      ∧ u.isComplete = sampleMovieRecord.isComplete
      ∧ u.processedAt = 5 ∧ u.updatedAt = 5
      ∧ u.version = (if sampleMovieRecord.version > 0 then
          sampleMovieRecord.version else 1) :=
  roundTrip_preserves_fields 5 sampleMovieRecord ⟨[], 1⟩ (by decide)
    (fun _ => by decide) (fun h => absurd rfl h)

/-- C9: a Metadata Service failure degrades gracefully and aborts only the
failing step: a failed production-countries lookup leaves classification
working on the country data from the metadata file, and a failed
season-count lookup during completeness detection leaves the post-placement
phase with the catalog persistence applied, the gap tables and the
filesystem untouched, and an overall `nil` result (the error is logged,
never propagated). -/
theorem serviceFailure_degrades_gracefully :
    (∀ (nfoCountry : List String) (tmdbID apiKey e : String),
      effectiveCountries nfoCountry tmdbID apiKey (.error e) = nfoCountry)
    ∧ (∀ (now : Nat) (isTVShow : Bool) (tmdbID e : String)
        (rec : MediaRecord) (w : World),
      classifyAndMoveTail now isTVShow tmdbID (.error e) rec w =
        ({ w with mdb := InsertOrUpdateMediaRecord now rec w.mdb }, .ok ())) := by
  constructor
  · intro nfoCountry tmdbID apiKey e
    by_cases h1 : tmdbID = "" <;> by_cases h2 : apiKey = "" <;>
      simp [effectiveCountries, h1, h2]
  · intro now isTVShow tmdbID e rec w
    by_cases hb : isTVShow && tmdbID ≠ ""
    · by_cases ht : rec.tmdbID = ""
      · simp [classifyAndMoveTail, hb, DetectMissingSeasonsAndEpisodes, ht]
      · simp [classifyAndMoveTail, hb, DetectMissingSeasonsAndEpisodes, ht]
    · simp [classifyAndMoveTail, hb]
      intro h1 h2
      simp [h1, h2] at hb

/-- With at least one country, `DetermineCategory` never fails: every
branch of the loop body returns a category. -/
theorem determineCategory_ok_of_nonempty (c : String) (cs : List String)
    (isTVShow : Bool) (genres : List String) :
    ∃ cat, DetermineCategory (c :: cs) isTVShow genres = .ok cat := by
  rw [DetermineCategory]
  by_cases h1 : genres.any isDocumentaryGenre
  · exact ⟨_, by rw [if_pos h1]⟩
  · rw [if_neg h1]
    by_cases h2 : genres.any isVarietyGenre
    · exact ⟨_, by rw [if_pos h2]⟩
    · rw [if_neg h2]
      by_cases h3 : genres.any isAnimeGenre
      · exact ⟨_, by rw [if_pos h3]⟩
      · rw [if_neg h3]
        refine ⟨countryCategory c isTVShow, ?_⟩
        simp [categoryFromCountries, List.findSome?]


/-- C10: for every parsed metadata record whose title contains no Han
character, or whose genre list has an entry with no Han character,
`ClassifyAndMove` skips the title entirely: it performs no filesystem move
or merge, writes no catalog record (the world is returned unchanged), and
returns success rather than an error. -/
theorem nonChinese_title_or_genre_skips (now : Nat)
    (nfoFileName srcName mediaDirPath targetMediaPath : String) (nfo : NFO)
    (apiKey : String) (countryLookup : Except String (List String))
    (seasonLookup : Except String Nat) (w : World)
    (ses : List (String × FSNode)) (hsrc : w.src = some (.dir ses))
    (hgate : IsSimplifiedChinese nfo.title = false ∨
      ∃ g ∈ nfo.genres, IsSimplifiedChinese g = false) :
    ClassifyAndMove now nfoFileName srcName mediaDirPath targetMediaPath
      nfo apiKey countryLookup seasonLookup w = (w, .ok ()) := by
  simp only [ClassifyAndMove, hsrc]
  by_cases h1 : nfoCountOf ses > 1
  · simp [h1]
  rw [if_neg h1]
  by_cases h2 : isNFOResolved nfo
  case neg => simp [h2]
  rw [if_neg (by simp [h2])]
  by_cases h3 :
      (effectiveCountries nfo.country nfo.tmdbID apiKey countryLookup).isEmpty
  · simp [h3]
  rw [if_neg h3]
  obtain ⟨c, cs, hcc⟩ : ∃ c cs,
      effectiveCountries nfo.country nfo.tmdbID apiKey countryLookup =
        c :: cs := by
    cases hq : effectiveCountries nfo.country nfo.tmdbID apiKey countryLookup with
    | nil => rw [hq] at h3; simp at h3
    | cons c cs => exact ⟨c, cs, rfl⟩
  obtain ⟨cat, hcat⟩ := determineCategory_ok_of_nonempty c cs nfo.IsTVShow
    nfo.genres
  rw [hcc, hcat]
  simp only []
  by_cases h4 : isProjectDirectory ses
  · simp [h4]
  rw [if_neg h4]
  by_cases h5 : IsSimplifiedChinese nfo.title
  case neg => simp [h5]
  rw [if_neg (by simp [h5])]
  have h6 : nfo.genres.any (fun g => !IsSimplifiedChinese g) = true := by
    rcases hgate with hL | ⟨g, hg, hgf⟩
    · rw [hL] at h5; simp at h5
    · exact List.any_eq_true.2 ⟨g, hg, by simp [hgf]⟩
  rw [if_pos h6]

/-- C10 witness: the theorem applied to a movie titled "Inception" — no Han
character — with the sample world. -/
theorem nonChinese_title_or_genre_skips_witness :
    ClassifyAndMove 9 "Inception.nfo" "Inception" "/downloads/Inception"
      "/cloud/EnMovie/Inception" sampleEnglishNFO "" (.error "no key")
      (.error "no key") sampleWorld = (sampleWorld, .ok ()) :=
  nonChinese_title_or_genre_skips 9 "Inception.nfo" "Inception"
    "/downloads/Inception" "/cloud/EnMovie/Inception" sampleEnglishNFO ""
    (.error "no key") (.error "no key") sampleWorld sampleSrcListing rfl
    (Or.inl (by decide))

end MediaManager
